import Mathlib

/-!
Verification of the key-provisioning pipeline in `gen_keys.py`
(android_vendor_lineage-priv_keys).

The Python source is shallowly embedded:
* the RDN-defaults dictionary of `subject_params` becomes an association
  list mapping each field name to the model of the Python dict `{1: value}`;
* the filesystem is an existence predicate `String → Bool`; each bundle
  generator becomes a pure function from the input filesystem to a record
  holding the output filesystem, the list of paths written (in write order),
  the path handed to the external public-key extractor (apex only), and the
  returned path tuple;
* X.509 certificate construction is modelled field-by-field as the code
  builds it (subject fields from `subject_params`, serial number, validity
  offsets from generation time, issuer copied from the subject);
* the `ProcessPoolExecutor` orchestration is modelled by a completion log in
  an arbitrary completion order, per-index future lookup, and in-order
  collection; exception propagation of `future.result()` is modelled in the
  `Except` monad together with an event trace for `main`.
-/

namespace GenKeys

/-- The RDN defaults dictionary of `subject_params` (gen_keys.py lines 36-44).
Each Python value `{1: v}` is modelled as the association list `[(1, v)]`. -/
def defaultsList : List (String × List (Nat × String)) :=
  [("C", [(1, "US")]),
   ("ST", [(1, "California")]),
   ("L", [(1, "Mountain View")]),
   ("O", [(1, "Android")]),
   ("OU", [(1, "Android")]),
   ("CN", [(1, "Android")]),
   ("emailAddress", [(1, "android@android.com")])]

/-- Python dict assignment `d[k] = v` on an association list: replace the
binding if the key is present, otherwise append it. -/
def dset (d : List (String × List (Nat × String))) (k : String)
    (v : List (Nat × String)) : List (String × List (Nat × String)) :=
  if (d.lookup k).isSome then
    d.map (fun p => if p.1 = k then (k, v) else p)
  else
    d ++ [(k, v)]

/-- `subject_params` (gen_keys.py lines 34-49).  `custom_param = none` models
the Python default `None`; the guard `custom_param and param in custom_param`
is Python-truthy, so an empty dict behaves like `None`.  The Python function
returns `defaults.get(param)`, i.e. `None` when the field is unknown, which is
modelled by `Option`. -/
def subject_params (param : String)
    (custom_param : Option (List (String × String))) :
    Option (List (Nat × String)) :=
  let defaults := defaultsList
  let defaults2 :=
    match custom_param with
    | some cp =>
        if !cp.isEmpty then
          match cp.lookup param with
          | some v => dset defaults param [(1, v)]
          | none => defaults
        else defaults
    | none => defaults
  defaults2.lookup param

/-- The call-site composition `subject_params(param, custom)[1]` used by both
certificate builders (gen_keys.py lines 67-73 and 125-131): look the field up
and then index the inner dict at `1`.  A `none` result models the Python call
failing (subscripting `None`). -/
def subject_params_at1 (param : String)
    (custom_param : Option (List (String × String))) : Option String :=
  (subject_params param custom_param).bind (fun d => d.lookup 1)

/-- The seven recognized RDN field names (the keys of the defaults dict). -/
def rdnFieldNames : List String :=
  ["C", "ST", "L", "O", "OU", "CN", "emailAddress"]

lemma lookup_map_dset (k : String) (v : List (Nat × String)) :
    ∀ d : List (String × List (Nat × String)), (d.lookup k).isSome = true →
      (d.map (fun p => if p.1 = k then (k, v) else p)).lookup k = some v := by
  intro d
  induction d with
  | nil => intro h; simp [List.lookup] at h
  | cons hd tl ih =>
      obtain ⟨a, b⟩ := hd
      intro h
      by_cases hk : a = k
      · subst hk
        simp only [List.map_cons]
        simp [List.lookup]
      · have hbeq : (k == a) = false := by
          simp only [beq_eq_false_iff_ne]
          exact fun e => hk e.symm
        simp only [List.map_cons]
        rw [if_neg (by simpa using hk)]
        simp only [List.lookup, hbeq]
        exact ih (by simpa [List.lookup, hbeq] using h)

lemma lookup_append_single (k : String) (v : List (Nat × String)) :
    ∀ d : List (String × List (Nat × String)), (d.lookup k).isSome = false →
      ((d ++ [(k, v)]).lookup k) = some v := by
  intro d
  induction d with
  | nil => intro _; simp [List.lookup]
  | cons hd tl ih =>
      obtain ⟨a, b⟩ := hd
      intro h
      have hbeq : (k == a) = false := by
        cases hkb : (k == a) with
        | false => rfl
        | true => simp [List.lookup, hkb] at h
      simp only [List.cons_append, List.lookup, hbeq]
      exact ih (by simpa [List.lookup, hbeq] using h)

lemma dset_lookup (d : List (String × List (Nat × String))) (k : String)
    (v : List (Nat × String)) : (dset d k v).lookup k = some v := by
  unfold dset
  by_cases h : (d.lookup k).isSome = true
  · simp only [h, if_true]
    exact lookup_map_dset k v d h
  · have h' : (d.lookup k).isSome = false := by
      cases hh : (d.lookup k).isSome with
      | false => rfl
      | true => exact absurd hh h
    simp only [h', Bool.false_eq_true, if_false]
    exact lookup_append_single k v d h'

/-- Claim C4: for every input string that is not one of the seven recognized
RDN field names (`C`, `ST`, `L`, `O`, `OU`, `CN`, `emailAddress`), the subject
resolver `subject_params`, called with no override, fails: it produces no
field value (the Python function returns `None` — the `UnknownField` failure
mode — and the call-site subscript `[1]` then fails as well). -/
theorem subject_params_unknown_field (param : String)
    (h : param ∉ rdnFieldNames) :
    subject_params param none = none ∧ subject_params_at1 param none = none := by
  have h1 : (param == "C") = false := by
    simp only [beq_eq_false_iff_ne]
    intro e; exact h (by rw [e]; decide)
  have h2 : (param == "ST") = false := by
    simp only [beq_eq_false_iff_ne]
    intro e; exact h (by rw [e]; decide)
  have h3 : (param == "L") = false := by
    simp only [beq_eq_false_iff_ne]
    intro e; exact h (by rw [e]; decide)
  have h4 : (param == "O") = false := by
    simp only [beq_eq_false_iff_ne]
    intro e; exact h (by rw [e]; decide)
  have h5 : (param == "OU") = false := by
    simp only [beq_eq_false_iff_ne]
    intro e; exact h (by rw [e]; decide)
  have h6 : (param == "CN") = false := by
    simp only [beq_eq_false_iff_ne]
    intro e; exact h (by rw [e]; decide)
  have h7 : (param == "emailAddress") = false := by
    simp only [beq_eq_false_iff_ne]
    intro e; exact h (by rw [e]; decide)
  have hmain : subject_params param none = none := by
    simp [subject_params, defaultsList, List.lookup, h1, h2, h3, h4, h5, h6, h7]
  exact ⟨hmain, by simp [subject_params_at1, hmain]⟩

/-- Witness for C4 at the concrete unrecognized field `"bogus"`. -/
theorem subject_params_unknown_field_witness :
    subject_params "bogus" none = none ∧
    subject_params_at1 "bogus" none = none :=
  subject_params_unknown_field "bogus" (by decide)

/-- Claim C10: the override mechanism of `subject_params` is field-generic,
not CN-specific: whenever the override map binds the requested field name —
whether or not that name is one of the seven recognized RDN fields — the
resolved value is the override value (in particular the call succeeds for an
unrecognized field name carried by the override map). -/
theorem subject_params_override_generic (param v : String)
    (m : List (String × String)) (hm : m.lookup param = some v) :
    subject_params_at1 param (some m) = some v := by
  have hne : m.isEmpty = false := by
    cases m with
    | nil => simp [List.lookup] at hm
    | cons hd tl => rfl
  simp only [subject_params_at1, subject_params, hne, Bool.not_false, if_true, hm]
  simp [dset_lookup, List.lookup]

/-- Witness for C10: an unrecognized field name bound by the override map is
resolved to the override value. -/
theorem subject_params_override_generic_witness :
    subject_params_at1 "serialNumber" (some [("serialNumber", "42")]) =
      some "42" :=
  subject_params_override_generic "serialNumber" "42"
    [("serialNumber", "42")] (by decide)

/-- `CERTS_PATH = Path('~/.android-certs').expanduser()` (gen_keys.py line
16), parametrized by the resolved home directory. -/
def CERTS_PATH (home : String) : String := home ++ "/.android-certs"

/-- The path triple of `generate_single_platform_key` (gen_keys.py lines
53-55): the private key under `CERTS_PATH`, the certificate and the PKCS8
file relative to the current working directory. -/
def platformRet (home cert : String) : String × String × String :=
  (CERTS_PATH home ++ "/" ++ cert ++ ".pem",
   cert ++ ".x509.pem",
   cert ++ ".pk8")

/-- The five paths of `generate_single_apex_key` (gen_keys.py lines 103-107),
all relative to the current working directory. -/
def apexRet (apex : String) : String × String × String × String × String :=
  (apex ++ ".pem",
   apex ++ ".certificate.override.x509.pem",
   apex ++ ".certificate.override.pk8",
   apex ++ ".avbpubkey",
   apex ++ ".pubkey")

/-- Result of one platform bundle generation: the filesystem after the call
(an existence predicate), the paths written in write order, and the returned
path triple. -/
structure PlatResult where
  fs : String → Bool
  writes : List String
  ret : String × String × String

/-- Result of one apex bundle generation; `extracted` is the output path
handed to the external `avbtool` public-key extractor, `none` when the
extraction step was skipped. -/
structure ApexResult where
  fs : String → Bool
  writes : List String
  extracted : Option String
  ret : String × String × String × String × String

/-- `generate_single_platform_key` (gen_keys.py lines 52-99) over a
filesystem modelled as an existence predicate.  If any of the three expected
files is missing, the key PEM, the certificate and the PKCS8 file are all
(re)written, in that order; otherwise nothing is touched.  The path triple is
returned in both cases. -/
def generate_single_platform_key (home : String) (fs : String → Bool)
    (cert : String) : PlatResult :=
  let key_platform := CERTS_PATH home ++ "/" ++ cert ++ ".pem"
  let x509_file := cert ++ ".x509.pem"
  let pk8_file := cert ++ ".pk8"
  if [key_platform, x509_file, pk8_file].any (fun p => !(fs p)) then
    let writes := [key_platform, x509_file, pk8_file]
    { fs := fun p => writes.contains p || fs p,
      writes := writes,
      ret := (key_platform, x509_file, pk8_file) }
  else
    { fs := fs, writes := [], ret := (key_platform, x509_file, pk8_file) }

/-- `generate_single_apex_key` (gen_keys.py lines 102-163).  Regeneration is
triggered when any of the three core files is missing, or when neither of the
two public-key filenames exists.  On regeneration the code writes the key
PEM, extracts the public key (to the `.pubkey` name for the single entry
`com.android.vndk`, to the `.avbpubkey` name for every other entry), then
writes the certificate and the PKCS8 file. -/
def generate_single_apex_key (fs : String → Bool) (apex : String) :
    ApexResult :=
  let key_apex := apex ++ ".pem"
  let x509_file := apex ++ ".certificate.override.x509.pem"
  let pk8_file := apex ++ ".certificate.override.pk8"
  let avbpubkey_file := apex ++ ".avbpubkey"
  let pubkey_file := apex ++ ".pubkey"
  if [key_apex, x509_file, pk8_file].any (fun p => !(fs p)) ||
      (!(fs pubkey_file) && !(fs avbpubkey_file)) then
    let pub_target :=
      if apex = "com.android.vndk" then pubkey_file else avbpubkey_file
    let writes := [key_apex, pub_target, x509_file, pk8_file]
    { fs := fun p => writes.contains p || fs p,
      writes := writes,
      extracted := some pub_target,
      ret := (key_apex, x509_file, pk8_file, avbpubkey_file, pubkey_file) }
  else
    { fs := fs, writes := [], extracted := none,
      ret := (key_apex, x509_file, pk8_file, avbpubkey_file, pubkey_file) }

lemma platform_cond (fs : String → Bool) (a b c : String) :
    ([a, b, c].any (fun p => !(fs p)) = true) ↔
      ¬(fs a = true ∧ fs b = true ∧ fs c = true) := by
  cases h1 : fs a <;> cases h2 : fs b <;> cases h3 : fs c <;>
    simp [List.any, h1, h2, h3]

lemma apex_cond (fs : String → Bool) (a b c u w : String) :
    (([a, b, c].any (fun p => !(fs p)) || (!(fs u) && !(fs w))) = true) ↔
      ¬(fs a = true ∧ fs b = true ∧ fs c = true ∧
        (fs u = true ∨ fs w = true)) := by
  cases h1 : fs a <;> cases h2 : fs b <;> cases h3 : fs c <;>
    cases h4 : fs u <;> cases h5 : fs w <;>
    simp [List.any, h1, h2, h3, h4, h5]

/-- Claim C1: `generate_single_platform_key` skips all generation work
exactly when all three expected output paths already exist — returning the
three paths while leaving the filesystem untouched — and when any one of the
three is missing it rewrites all three artifacts (key PEM, certificate,
PKCS8), never only the missing one. -/
theorem platform_bundle_idempotency (home : String) (fs : String → Bool)
    (cert : String) :
    ((generate_single_platform_key home fs cert).writes = [] ↔
      (fs (CERTS_PATH home ++ "/" ++ cert ++ ".pem") = true ∧
        fs (cert ++ ".x509.pem") = true ∧ fs (cert ++ ".pk8") = true)) ∧
    ((generate_single_platform_key home fs cert).writes = [] →
      (generate_single_platform_key home fs cert).fs = fs) ∧
    (¬(fs (CERTS_PATH home ++ "/" ++ cert ++ ".pem") = true ∧
        fs (cert ++ ".x509.pem") = true ∧ fs (cert ++ ".pk8") = true) →
      (generate_single_platform_key home fs cert).writes =
        [CERTS_PATH home ++ "/" ++ cert ++ ".pem", cert ++ ".x509.pem",
          cert ++ ".pk8"]) ∧
    (generate_single_platform_key home fs cert).ret =
      (CERTS_PATH home ++ "/" ++ cert ++ ".pem", cert ++ ".x509.pem",
        cert ++ ".pk8") := by
  by_cases hc : ([CERTS_PATH home ++ "/" ++ cert ++ ".pem",
      cert ++ ".x509.pem", cert ++ ".pk8"].any (fun p => !(fs p))) = true
  · have hprop := (platform_cond fs _ _ _).mp hc
    have hr : generate_single_platform_key home fs cert =
        { fs := fun p => [CERTS_PATH home ++ "/" ++ cert ++ ".pem",
            cert ++ ".x509.pem", cert ++ ".pk8"].contains p || fs p,
          writes := [CERTS_PATH home ++ "/" ++ cert ++ ".pem",
            cert ++ ".x509.pem", cert ++ ".pk8"],
          ret := (CERTS_PATH home ++ "/" ++ cert ++ ".pem",
            cert ++ ".x509.pem", cert ++ ".pk8") } := by
      simp only [generate_single_platform_key]
      rw [if_pos hc]
    rw [hr]
    refine ⟨⟨fun h => absurd h (by simp), fun h => absurd h hprop⟩,
      fun h => absurd h (by simp), fun _ => rfl, rfl⟩
  · have hprop : fs (CERTS_PATH home ++ "/" ++ cert ++ ".pem") = true ∧
        fs (cert ++ ".x509.pem") = true ∧ fs (cert ++ ".pk8") = true :=
      not_not.mp (mt (platform_cond fs _ _ _).mpr hc)
    have hr : generate_single_platform_key home fs cert =
        { fs := fs, writes := [],
          ret := (CERTS_PATH home ++ "/" ++ cert ++ ".pem",
            cert ++ ".x509.pem", cert ++ ".pk8") } := by
      simp only [generate_single_platform_key]
      rw [if_neg hc]
    rw [hr]
    exact ⟨⟨fun _ => hprop, fun _ => rfl⟩, fun _ => rfl,
      fun h => absurd hprop h, rfl⟩

/-- Witness for C1: on a filesystem where all three files exist, the call
performs no write. -/
theorem platform_bundle_idempotency_witness :
    (generate_single_platform_key "/home/user" (fun _ => true)
        "releasekey").writes = [] :=
  (platform_bundle_idempotency "/home/user" (fun _ => true)
      "releasekey").1.mpr ⟨rfl, rfl, rfl⟩

lemma generate_single_apex_key_eq_of_cond (fs : String → Bool)
    (apex : String)
    (hc : (([apex ++ ".pem", apex ++ ".certificate.override.x509.pem",
        apex ++ ".certificate.override.pk8"].any (fun p => !(fs p)) ||
        (!(fs (apex ++ ".pubkey")) && !(fs (apex ++ ".avbpubkey"))))) = true) :
    generate_single_apex_key fs apex =
      { fs := fun p => [apex ++ ".pem",
          (if apex = "com.android.vndk" then apex ++ ".pubkey"
            else apex ++ ".avbpubkey"),
          apex ++ ".certificate.override.x509.pem",
          apex ++ ".certificate.override.pk8"].contains p || fs p,
        writes := [apex ++ ".pem",
          (if apex = "com.android.vndk" then apex ++ ".pubkey"
            else apex ++ ".avbpubkey"),
          apex ++ ".certificate.override.x509.pem",
          apex ++ ".certificate.override.pk8"],
        extracted := some (if apex = "com.android.vndk" then
          apex ++ ".pubkey" else apex ++ ".avbpubkey"),
        ret := (apex ++ ".pem", apex ++ ".certificate.override.x509.pem",
          apex ++ ".certificate.override.pk8", apex ++ ".avbpubkey",
          apex ++ ".pubkey") } := by
  simp only [generate_single_apex_key]
  rw [if_pos hc]

lemma generate_single_apex_key_eq_of_not_cond (fs : String → Bool)
    (apex : String)
    (hc : ¬(([apex ++ ".pem", apex ++ ".certificate.override.x509.pem",
        apex ++ ".certificate.override.pk8"].any (fun p => !(fs p)) ||
        (!(fs (apex ++ ".pubkey")) && !(fs (apex ++ ".avbpubkey"))))) = true) :
    generate_single_apex_key fs apex =
      { fs := fs, writes := [], extracted := none,
        ret := (apex ++ ".pem", apex ++ ".certificate.override.x509.pem",
          apex ++ ".certificate.override.pk8", apex ++ ".avbpubkey",
          apex ++ ".pubkey") } := by
  simp only [generate_single_apex_key]
  rw [if_neg hc]

/-- Claim C2: `generate_single_apex_key` treats the bundle as complete — and
skips all generation, including the external public-key extraction — exactly
when the three core files exist and at least one of the two public-key
filenames (`.pubkey` or `.avbpubkey`) exists; either public-key filename
suffices. -/
theorem apex_bundle_idempotency (fs : String → Bool) (apex : String) :
    ((generate_single_apex_key fs apex).writes = [] ↔
      (fs (apex ++ ".pem") = true ∧
        fs (apex ++ ".certificate.override.x509.pem") = true ∧
        fs (apex ++ ".certificate.override.pk8") = true ∧
        (fs (apex ++ ".pubkey") = true ∨
          fs (apex ++ ".avbpubkey") = true))) ∧
    ((generate_single_apex_key fs apex).writes = [] ↔
      (generate_single_apex_key fs apex).extracted = none) ∧
    ((generate_single_apex_key fs apex).writes = [] →
      (generate_single_apex_key fs apex).fs = fs) := by
  by_cases hc : (([apex ++ ".pem", apex ++ ".certificate.override.x509.pem",
      apex ++ ".certificate.override.pk8"].any (fun p => !(fs p)) ||
      (!(fs (apex ++ ".pubkey")) && !(fs (apex ++ ".avbpubkey"))))) = true
  · have hprop := (apex_cond fs _ _ _ _ _).mp hc
    rw [generate_single_apex_key_eq_of_cond fs apex hc]
    refine ⟨⟨fun h => absurd h (by simp), fun h => absurd h hprop⟩,
      ⟨fun h => absurd h (by simp), fun h => absurd h (by simp)⟩,
      fun h => absurd h (by simp)⟩
  · have hprop := not_not.mp (mt (apex_cond fs _ _ _ _ _).mpr hc)
    rw [generate_single_apex_key_eq_of_not_cond fs apex hc]
    exact ⟨⟨fun _ => hprop, fun _ => rfl⟩, ⟨fun _ => rfl, fun _ => rfl⟩,
      fun _ => rfl⟩

/-- Witness for C2: a bundle whose `.avbpubkey` file is missing but whose
`.pubkey` file exists (together with the three core files) is treated as
complete: nothing is written and no extraction happens. -/
theorem apex_bundle_idempotency_witness :
    (generate_single_apex_key
        (fun p => !(p == "com.android.adbd.avbpubkey"))
        "com.android.adbd").writes = [] :=
  ((apex_bundle_idempotency
      (fun p => !(p == "com.android.adbd.avbpubkey"))
      "com.android.adbd").1).mpr
    (by refine ⟨by decide, by decide, by decide, Or.inl (by decide)⟩)

/-- Claim C3: when `generate_single_apex_key` extracts a public key, the
output path is selected solely by the entry name: for `com.android.vndk` it
is the legacy name ending in `.pubkey`; for every other entry it is the AVB
name ending in `.avbpubkey`. -/
theorem apex_pubkey_routing (fs : String → Bool) (apex p : String)
    (h : (generate_single_apex_key fs apex).extracted = some p) :
    (apex = "com.android.vndk" →
      p = apex ++ ".pubkey" ∧ ".pubkey".data <:+ p.data) ∧
    (apex ≠ "com.android.vndk" →
      p = apex ++ ".avbpubkey" ∧ ".avbpubkey".data <:+ p.data) := by
  have hp : p = (if apex = "com.android.vndk" then apex ++ ".pubkey"
      else apex ++ ".avbpubkey") := by
    by_cases hcond : (([apex ++ ".pem",
        apex ++ ".certificate.override.x509.pem",
        apex ++ ".certificate.override.pk8"].any (fun q => !(fs q)) ||
        (!(fs (apex ++ ".pubkey")) && !(fs (apex ++ ".avbpubkey"))))) = true
    · rw [generate_single_apex_key_eq_of_cond fs apex hcond] at h
      exact (Option.some.inj h).symm
    · rw [generate_single_apex_key_eq_of_not_cond fs apex hcond] at h
      exact absurd h (by simp)
  constructor
  · intro hv
    rw [if_pos hv] at hp
    exact ⟨hp, apex.data, by rw [hp, String.data_append]⟩
  · intro hv
    rw [if_neg hv] at hp
    exact ⟨hp, apex.data, by rw [hp, String.data_append]⟩

/-- Witness for C3: on an empty filesystem, the designated legacy entry
`com.android.vndk` routes its extraction output to the `.pubkey` name. -/
theorem apex_pubkey_routing_witness :
    ("com.android.vndk.pubkey" : String) = "com.android.vndk" ++ ".pubkey" ∧
      (".pubkey" : String).data <:+ ("com.android.vndk.pubkey" : String).data :=
  (apex_pubkey_routing (fun _ => false) "com.android.vndk"
      "com.android.vndk.pubkey" (by decide)).1 rfl

/-- The X.509 subject/issuer name, one field per RDN the code sets
(gen_keys.py lines 67-73 and 125-131). -/
structure X509Name where
  C : String
  ST : String
  L : String
  O : String
  OU : String
  CN : String
  emailAddress : String
deriving DecidableEq

/-- The certificate fields the code sets: subject, issuer (copied from the
subject, line 78/136), serial number (line 75/133) and the validity window as
absolute times, `gmtime_adj_notBefore(0)` / `gmtime_adj_notAfter(10000 * 24 *
60 * 60)` applied to the generation time `t` in seconds (lines 76-77 and
134-135). -/
structure X509Cert where
  subject : X509Name
  issuer : X509Name
  serialNumber : Nat
  notBefore : Nat
  notAfter : Nat
deriving DecidableEq

/-- The certificate built by `generate_single_platform_key` (gen_keys.py
lines 66-80): every subject field comes from `subject_params` with no
override; `t` is the generation time in seconds.  The `Option` result fails
exactly when one of the `subject_params(...)[1]` subscripts would fail. -/
def buildPlatformCert (t : Nat) : Option X509Cert := do
  let c ← subject_params_at1 "C" none
  let st ← subject_params_at1 "ST" none
  let l ← subject_params_at1 "L" none
  let o ← subject_params_at1 "O" none
  let ou ← subject_params_at1 "OU" none
  let cn ← subject_params_at1 "CN" none
  let email ← subject_params_at1 "emailAddress" none
  let subj : X509Name := ⟨c, st, l, o, ou, cn, email⟩
  some { subject := subj, issuer := subj, serialNumber := 1,
         notBefore := t + 0, notAfter := t + 10000 * 24 * 60 * 60 }

/-- The certificate built by `generate_single_apex_key` (gen_keys.py lines
124-138): identical to the platform certificate except that `CN` is resolved
with the override `{'CN': apex}` (line 130). -/
def buildApexCert (apex : String) (t : Nat) : Option X509Cert := do
  let c ← subject_params_at1 "C" none
  let st ← subject_params_at1 "ST" none
  let l ← subject_params_at1 "L" none
  let o ← subject_params_at1 "O" none
  let ou ← subject_params_at1 "OU" none
  let cn ← subject_params_at1 "CN" (some [("CN", apex)])
  let email ← subject_params_at1 "emailAddress" none
  let subj : X509Name := ⟨c, st, l, o, ou, cn, email⟩
  some { subject := subj, issuer := subj, serialNumber := 1,
         notBefore := t + 0, notAfter := t + 10000 * 24 * 60 * 60 }

lemma subject_params_at1_C : subject_params_at1 "C" none = some "US" := by
  decide

lemma subject_params_at1_ST :
    subject_params_at1 "ST" none = some "California" := by decide

lemma subject_params_at1_L :
    subject_params_at1 "L" none = some "Mountain View" := by decide

lemma subject_params_at1_O :
    subject_params_at1 "O" none = some "Android" := by decide

lemma subject_params_at1_OU :
    subject_params_at1 "OU" none = some "Android" := by decide

lemma subject_params_at1_CN :
    subject_params_at1 "CN" none = some "Android" := by decide

lemma subject_params_at1_email :
    subject_params_at1 "emailAddress" none =
      some "android@android.com" := by decide

lemma subject_params_at1_CN_override (v : String) :
    subject_params_at1 "CN" (some [("CN", v)]) = some v :=
  subject_params_override_generic "CN" v [("CN", v)] rfl

/-- The platform subject/issuer name: all seven defaults. -/
def platformName : X509Name :=
  ⟨"US", "California", "Mountain View", "Android", "Android", "Android",
    "android@android.com"⟩

/-- The apex subject/issuer name: defaults with `CN` overridden to the apex
catalog name. -/
def apexName (apex : String) : X509Name :=
  ⟨"US", "California", "Mountain View", "Android", "Android", apex,
    "android@android.com"⟩

lemma buildPlatformCert_eq (t : Nat) :
    buildPlatformCert t =
      some { subject := platformName, issuer := platformName,
             serialNumber := 1, notBefore := t + 0,
             notAfter := t + 10000 * 24 * 60 * 60 } := by
  rw [buildPlatformCert]
  rw [subject_params_at1_C, subject_params_at1_ST, subject_params_at1_L,
    subject_params_at1_O, subject_params_at1_OU, subject_params_at1_CN,
    subject_params_at1_email]
  rfl

lemma buildApexCert_eq (apex : String) (t : Nat) :
    buildApexCert apex t =
      some { subject := apexName apex, issuer := apexName apex,
             serialNumber := 1, notBefore := t + 0,
             notAfter := t + 10000 * 24 * 60 * 60 } := by
  rw [buildApexCert]
  rw [subject_params_at1_C, subject_params_at1_ST, subject_params_at1_L,
    subject_params_at1_O, subject_params_at1_OU,
    subject_params_at1_CN_override, subject_params_at1_email]
  rfl

/-- Claim C6: every generated certificate (platform or apex) has subject
equal to issuer, serial number exactly 1, a validity window starting at the
generation time `t` and extending exactly 10,000 days forward, with `CN`
equal to the shared default `"Android"` for a platform bundle and to the
entry's own catalog name for an apex bundle. -/
theorem certificate_shape (t : Nat) (apex : String) :
    ∃ pc ac : X509Cert,
      buildPlatformCert t = some pc ∧ buildApexCert apex t = some ac ∧
      pc.subject = pc.issuer ∧ pc.serialNumber = 1 ∧
      pc.notBefore = t ∧ pc.notAfter = t + 10000 * 24 * 60 * 60 ∧
      pc.subject.CN = "Android" ∧
      ac.subject = ac.issuer ∧ ac.serialNumber = 1 ∧
      ac.notBefore = t ∧ ac.notAfter = t + 10000 * 24 * 60 * 60 ∧
      ac.subject.CN = apex := by
  refine ⟨_, _, buildPlatformCert_eq t, buildApexCert_eq apex t,
    rfl, rfl, rfl, rfl, rfl, rfl, rfl, rfl, rfl, rfl⟩

/-- One completion log of the worker pool: the submitted tasks finish in an
arbitrary `order`; each completion records the submission index and the
task's value.  Task values depend only on the task's own entry (the tasks of
`generate_keys` share no in-memory state). -/
def completionLog {α β : Type} (tasks : List α) (f : α → β)
    (order : List (Fin tasks.length)) : List (Fin tasks.length × β) :=
  order.map (fun i => (i, f (tasks.get i)))

/-- `future.result()` for submission index `i`: look the completed value up
in the completion log. -/
def futureResult {n : Nat} {β : Type} (log : List (Fin n × β)) (i : Fin n) :
    Option β :=
  (log.find? (fun e => e.1 == i)).map (fun e => e.2)

/-- The collection loop `[future.result() for future in futures]`
(gen_keys.py lines 180-181): read the futures back in submission order,
whatever order they completed in. -/
def collectResults {α β : Type} (tasks : List α) (f : α → β)
    (order : List (Fin tasks.length)) : List (Option β) :=
  (List.finRange tasks.length).map
    (fun i => futureResult (completionLog tasks f order) i)

/-- `generate_keys` (gen_keys.py lines 166-183) at the result level: one task
per platform entry and one per apex entry, completing in arbitrary per-family
orders, collected per family in submission order. -/
def generate_keys_pool (home : String) (platform_keys apex_keys : List String)
    (orderP : List (Fin platform_keys.length))
    (orderA : List (Fin apex_keys.length)) :
    List (Option (String × String × String)) ×
      List (Option (String × String × String × String × String)) :=
  (collectResults platform_keys (platformRet home) orderP,
   collectResults apex_keys apexRet orderA)

lemma find?_completionLog {α β : Type} (tasks : List α) (f : α → β)
    (order : List (Fin tasks.length)) (i : Fin tasks.length)
    (hi : i ∈ order) :
    (completionLog tasks f order).find? (fun e => e.1 == i) =
      some (i, f (tasks.get i)) := by
  induction order with
  | nil => cases hi
  | cons j tl ih =>
      by_cases hj : j = i
      · subst hj
        simp [completionLog, List.find?]
      · have hbeq : (j == i) = false := by
          simp only [beq_eq_false_iff_ne]; exact hj
        have hi' : i ∈ tl := by
          cases hi with
          | head => exact absurd rfl hj
          | tail _ h => exact h
        simp only [completionLog, List.map_cons, List.find?, hbeq]
        exact ih hi'

lemma collectResults_complete {α β : Type} (tasks : List α) (f : α → β)
    (order : List (Fin tasks.length)) (h : ∀ i, i ∈ order) :
    collectResults tasks f order = tasks.map (fun a => some (f a)) := by
  unfold collectResults
  have hres : ∀ i : Fin tasks.length,
      futureResult (completionLog tasks f order) i =
        some (f (tasks.get i)) := by
    intro i
    unfold futureResult
    rw [find?_completionLog tasks f order i (h i)]
    rfl
  calc (List.finRange tasks.length).map
        (fun i => futureResult (completionLog tasks f order) i)
      = (List.finRange tasks.length).map
        (fun i => some (f (tasks.get i))) := by
        exact List.map_congr_left (fun i _ => hres i)
    _ = ((List.finRange tasks.length).map tasks.get).map
        (fun a => some (f a)) := by
        rw [List.map_map]
        rfl
    _ = tasks.map (fun a => some (f a)) := by rw [List.finRange_map_get]

/-- Claim C9: `generate_keys` returns its two result lists in per-family
catalog submission order, for every catalog and independently of the order in
which the parallel tasks complete: as long as every submitted task completes,
the collected lists equal the per-family catalogs mapped through the
per-entry result, regardless of the completion orders. -/
theorem generate_keys_order (home : String)
    (platform_keys apex_keys : List String)
    (orderP : List (Fin platform_keys.length))
    (orderA : List (Fin apex_keys.length))
    (hP : ∀ i, i ∈ orderP) (hA : ∀ i, i ∈ orderA) :
    generate_keys_pool home platform_keys apex_keys orderP orderA =
      (platform_keys.map (fun c => some (platformRet home c)),
       apex_keys.map (fun a => some (apexRet a))) := by
  unfold generate_keys_pool
  rw [collectResults_complete platform_keys (platformRet home) orderP hP,
    collectResults_complete apex_keys apexRet orderA hA]

/-- Witness for C9: two platform entries completing in reversed order and one
apex entry still collect in catalog order. -/
theorem generate_keys_order_witness :
    generate_keys_pool "/home/user" ["releasekey", "media"]
        ["com.android.adbd"] [⟨1, by decide⟩, ⟨0, by decide⟩]
        [⟨0, by decide⟩] =
      (["releasekey", "media"].map
          (fun c => some (platformRet "/home/user" c)),
       ["com.android.adbd"].map (fun a => some (apexRet a))) :=
  generate_keys_order "/home/user" ["releasekey", "media"]
    ["com.android.adbd"] [⟨1, by decide⟩, ⟨0, by decide⟩]
    [⟨0, by decide⟩] (by decide) (by decide)

/-- Events of one pipeline invocation: a submitted task running to
completion, and the emission of each of the two configuration files. -/
inductive RunEvent where
  | taskRun : String → RunEvent
  | emitAndroidBp : RunEvent
  | emitKeysMk : RunEvent
deriving DecidableEq

/-- The collection loop `[future.result() for future in futures]` in the
`Except` monad: results are read in submission order and the first stored
exception re-raises, aborting the remaining collection (gen_keys.py lines
180-181). -/
def collectExcept {β : Type} (ks : List String)
    (outcome : String → Except String β) : Except String (List β) :=
  match ks with
  | [] => Except.ok []
  | k :: tl =>
      match outcome k with
      | Except.error e => Except.error e
      | Except.ok b =>
          match collectExcept tl outcome with
          | Except.error e => Except.error e
          | Except.ok rest => Except.ok (b :: rest)

/-- `generate_keys` (gen_keys.py lines 166-183) at the control-flow level:
every submitted task runs to completion (the `with ProcessPoolExecutor`
block shuts the pool down waiting for all submitted tasks), and the collected
value is the first raised per-task exception, if any, else the two result
lists. -/
def generate_keys_run {β γ : Type} (platform_keys apex_keys : List String)
    (op : String → Except String β) (oa : String → Except String γ) :
    List RunEvent × Except String (List β × List γ) :=
  ((platform_keys ++ apex_keys).map RunEvent.taskRun,
   match collectExcept platform_keys op with
   | Except.error e => Except.error e
   | Except.ok p =>
       match collectExcept apex_keys oa with
       | Except.error e => Except.error e
       | Except.ok a => Except.ok (p, a))

/-- `main` (gen_keys.py lines 231-237): `generate_keys()` first; the two
config emitters run only if it returned normally — an exception from any
`future.result()` propagates out of `main` before `generate_android_bp` and
`generate_makefile` are called. -/
def main_run {β γ : Type} (platform_keys apex_keys : List String)
    (op : String → Except String β) (oa : String → Except String γ) :
    List RunEvent :=
  let r := generate_keys_run platform_keys apex_keys op oa
  match r.2 with
  | Except.ok _ => r.1 ++ [RunEvent.emitAndroidBp, RunEvent.emitKeysMk]
  | Except.error _ => r.1

/-- Counterexample to claim C5: with catalog `["releasekey", "media"]` /
`["com.android.adbd"]` and the single entry `releasekey` failing, every other
submitted task still runs, yet the run attempts neither `Android.bp` nor
`keys.mk` emission — contradicting the claim that emission of both
configuration files is still attempted after a per-entry failure. -/
theorem failure_skips_emission_cex :
    (RunEvent.taskRun "media" ∈ main_run ["releasekey", "media"]
        ["com.android.adbd"]
        (fun c => if c = "releasekey" then Except.error c else Except.ok ())
        (fun _ => Except.ok ())) ∧
    (RunEvent.taskRun "com.android.adbd" ∈ main_run ["releasekey", "media"]
        ["com.android.adbd"]
        (fun c => if c = "releasekey" then Except.error c else Except.ok ())
        (fun _ => Except.ok ())) ∧
    (RunEvent.emitAndroidBp ∉ main_run ["releasekey", "media"]
        ["com.android.adbd"]
        (fun c => if c = "releasekey" then Except.error c else Except.ok ())
        (fun _ => Except.ok ())) ∧
    (RunEvent.emitKeysMk ∉ main_run ["releasekey", "media"]
        ["com.android.adbd"]
        (fun c => if c = "releasekey" then Except.error c else Except.ok ())
        (fun _ => Except.ok ())) := by
  decide

lemma isOk_ok {ε α : Type} (a : α) :
    (Except.ok a : Except ε α).isOk = true := rfl

lemma isOk_error {ε α : Type} (e : ε) :
    (Except.error e : Except ε α).isOk = false := rfl

lemma collectExcept_isOk {β : Type} (ks : List String)
    (outcome : String → Except String β) :
    (collectExcept ks outcome).isOk = true ↔
      ∀ k ∈ ks, (outcome k).isOk = true := by
  induction ks with
  | nil => simp [collectExcept, isOk_ok]
  | cons k tl ih =>
      cases hk : outcome k with
      | error e =>
          simp [collectExcept, hk, isOk_error, List.forall_mem_cons]
      | ok b =>
          cases hrest : collectExcept tl outcome with
          | error e =>
              have htl : ¬∀ x ∈ tl, (outcome x).isOk = true := by
                intro hall
                have h2 := ih.mpr hall
                rw [hrest] at h2
                rw [isOk_error] at h2
                cases h2
              simp [collectExcept, hk, hrest, isOk_error, isOk_ok,
                List.forall_mem_cons, htl]
          | ok rest =>
              have htl := ih.mp (by rw [hrest]; rfl)
              simp [collectExcept, hk, hrest, isOk_error, isOk_ok,
                List.forall_mem_cons, htl]
              exact htl

lemma taskRun_not_emit (ks : List String) :
    RunEvent.emitAndroidBp ∉ ks.map RunEvent.taskRun ∧
      RunEvent.emitKeysMk ∉ ks.map RunEvent.taskRun := by
  constructor <;>
    · intro h
      obtain ⟨k, _, hk⟩ := List.mem_map.mp h
      cases hk

/-- Claim C5, amended: when the generation task of one catalog entry fails,
every submitted task (of both families) still runs to completion — the
executor shutdown waits for all of them — but the stored exception re-raises
during result collection and propagates out of `generate_keys`, so the run
attempts the emission of a configuration file exactly when every entry's task
succeeded; with any per-entry failure, neither `Android.bp` nor `keys.mk`
emission is attempted. -/
lemma generate_keys_run_isOk {β γ : Type}
    (platform_keys apex_keys : List String)
    (op : String → Except String β) (oa : String → Except String γ) :
    (generate_keys_run platform_keys apex_keys op oa).2.isOk = true ↔
      ((∀ k ∈ platform_keys, (op k).isOk = true) ∧
        (∀ k ∈ apex_keys, (oa k).isOk = true)) := by
  simp only [generate_keys_run]
  cases hp : collectExcept platform_keys op with
  | error e =>
      have hnp : ¬∀ k ∈ platform_keys, (op k).isOk = true := by
        intro hall
        have h2 := (collectExcept_isOk platform_keys op).mpr hall
        rw [hp, isOk_error] at h2
        cases h2
      simp [isOk_error, hnp]
  | ok p =>
      have hpok := (collectExcept_isOk platform_keys op).mp (by rw [hp]; rfl)
      cases ha : collectExcept apex_keys oa with
      | error e =>
          have hna : ¬∀ k ∈ apex_keys, (oa k).isOk = true := by
            intro hall
            have h2 := (collectExcept_isOk apex_keys oa).mpr hall
            rw [ha, isOk_error] at h2
            cases h2
          simp [isOk_error, hpok, hna]
      | ok a =>
          have haok := (collectExcept_isOk apex_keys oa).mp (by rw [ha]; rfl)
          simp [isOk_ok]
          exact ⟨hpok, haok⟩

lemma main_run_cases {β γ : Type} (platform_keys apex_keys : List String)
    (op : String → Except String β) (oa : String → Except String γ) :
    ((generate_keys_run platform_keys apex_keys op oa).2.isOk = true ∧
      main_run platform_keys apex_keys op oa =
        (platform_keys ++ apex_keys).map RunEvent.taskRun ++
          [RunEvent.emitAndroidBp, RunEvent.emitKeysMk]) ∨
    ((generate_keys_run platform_keys apex_keys op oa).2.isOk = false ∧
      main_run platform_keys apex_keys op oa =
        (platform_keys ++ apex_keys).map RunEvent.taskRun) := by
  simp only [main_run]
  cases hr : (generate_keys_run platform_keys apex_keys op oa).2 with
  | ok v => exact Or.inl ⟨rfl, rfl⟩
  | error e => exact Or.inr ⟨rfl, rfl⟩

theorem failure_isolation_semantics {β γ : Type}
    (platform_keys apex_keys : List String)
    (op : String → Except String β) (oa : String → Except String γ) :
    (∀ k ∈ platform_keys ++ apex_keys,
      RunEvent.taskRun k ∈ main_run platform_keys apex_keys op oa) ∧
    ((RunEvent.emitAndroidBp ∈ main_run platform_keys apex_keys op oa ∨
        RunEvent.emitKeysMk ∈ main_run platform_keys apex_keys op oa) ↔
      ((∀ k ∈ platform_keys, (op k).isOk = true) ∧
        (∀ k ∈ apex_keys, (oa k).isOk = true))) := by
  have hok := generate_keys_run_isOk platform_keys apex_keys op oa
  have hnot := taskRun_not_emit (platform_keys ++ apex_keys)
  rcases main_run_cases platform_keys apex_keys op oa with
    ⟨hval, he⟩ | ⟨hval, he⟩
  · refine ⟨?_, ?_⟩
    · intro k hk
      rw [he]
      exact List.mem_append_left _ (List.mem_map.mpr ⟨k, hk, rfl⟩)
    · rw [he]
      refine iff_of_true ?_ (hok.mp hval)
      exact Or.inl (List.mem_append_right _ (by simp))
  · refine ⟨?_, ?_⟩
    · intro k hk
      rw [he]
      exact List.mem_map.mpr ⟨k, hk, rfl⟩
    · rw [he]
      refine iff_of_false ?_ ?_
      · intro hmem
        cases hmem with
        | inl h => exact absurd h hnot.1
        | inr h => exact absurd h hnot.2
      · intro hall
        rw [hok.mpr hall] at hval
        cases hval


/-- Witness for the amended C5: in a successful run of a two-entry platform
catalog and a one-entry apex catalog, every task runs and emission occurs. -/
theorem failure_isolation_semantics_witness :
    RunEvent.taskRun "media" ∈
      main_run ["releasekey", "media"] ["com.android.adbd"]
        (fun _ => Except.ok ()) (fun _ => Except.ok ()) :=
  (failure_isolation_semantics ["releasekey", "media"] ["com.android.adbd"]
      (fun _ => Except.ok ()) (fun _ => Except.ok ())).1
    "media" (by decide)

/-- The set of output file paths a platform entry writes, derived from its
name (gen_keys.py lines 53-55). -/
def pathsOfPlatform (home cert : String) : List String :=
  [CERTS_PATH home ++ "/" ++ cert ++ ".pem",
   cert ++ ".x509.pem",
   cert ++ ".pk8"]

/-- The set of output file paths an apex entry can write, derived from its
name (gen_keys.py lines 103-107). -/
def pathsOfApex (apex : String) : List String :=
  [apex ++ ".pem",
   apex ++ ".certificate.override.x509.pem",
   apex ++ ".certificate.override.pk8",
   apex ++ ".avbpubkey",
   apex ++ ".pubkey"]

/-- A string with no path separator: as a filename it has no directory
component, so it resolves inside the current working directory. -/
def slashFree (s : String) : Prop := ('/' : Char) ∉ s.data

instance (s : String) : Decidable (slashFree s) := by
  unfold slashFree
  infer_instance

/-- `Path('Android.bp')` of `generate_android_bp` (gen_keys.py line 196). -/
def androidBpFile : String := "Android.bp"

/-- `Path('keys.mk')` of `generate_makefile` (gen_keys.py line 200). -/
def keysMkFile : String := "keys.mk"

/-- A path lies under the environment-resolved root directory. -/
def underRoot (home p : String) : Prop :=
  ∃ rest : String, p = CERTS_PATH home ++ "/" ++ rest

lemma append_ne_of_suffix_mismatch (S T : String)
    (hle : S.data.length ≤ T.data.length)
    (hS : T.data.drop (T.data.length - S.data.length) ≠ S.data)
    (n m : String) : n ++ S ≠ m ++ T := by
  intro h
  have hd : n.data ++ S.data = m.data ++ T.data := by
    rw [← String.data_append, ← String.data_append, h]
  have hlen : n.data.length + S.data.length =
      m.data.length + T.data.length := by
    have h2 := congrArg List.length hd
    simpa using h2
  have h1 : (n.data ++ S.data).drop n.data.length = S.data :=
    List.drop_left _ _
  have hnl : n.data.length =
      m.data.length + (T.data.length - S.data.length) := by omega
  rw [hd, hnl] at h1
  rw [List.drop_append] at h1
  exact hS h1

lemma append_eq_extend (S T U : String)
    (hTU : T.data = U.data ++ S.data) (n m : String)
    (h : n ++ S = m ++ T) : n = m ++ U := by
  have hd : n.data ++ S.data = m.data ++ T.data := by
    rw [← String.data_append, ← String.data_append, h]
  rw [hTU, ← List.append_assoc] at hd
  have h2 := List.append_cancel_right hd
  apply String.ext
  rw [String.data_append]
  exact h2

lemma append_right_cancel_str {S n m : String} (h : n ++ S = m ++ S) :
    n = m := by
  have hd : n.data ++ S.data = m.data ++ S.data := by
    rw [← String.data_append, ← String.data_append, h]
  exact String.ext (List.append_cancel_right hd)

lemma append_left_cancel_str {P n m : String} (h : P ++ n = P ++ m) :
    n = m := by
  have hd : P.data ++ n.data = P.data ++ m.data := by
    rw [← String.data_append, ← String.data_append, h]
  exact String.ext (List.append_cancel_left hd)

lemma slash_in_platform_key (home cert : String) :
    ('/' : Char) ∈ (CERTS_PATH home ++ "/" ++ cert ++ ".pem").data := by
  rw [String.data_append, String.data_append, String.data_append]
  exact List.mem_append_left _ (List.mem_append_left _
    (List.mem_append_right _ (by decide)))

lemma slash_not_in_app (m S : String) (hm : slashFree m)
    (hS : ('/' : Char) ∉ S.data) : ('/' : Char) ∉ (m ++ S).data := by
  rw [String.data_append]
  intro hmem
  cases List.mem_append.mp hmem with
  | inl h => exact hm h
  | inr h => exact hS h

/-- Counterexample to claim C7 as stated: name distinctness alone does not
make the derived path sets disjoint.  The two distinct apex names `a` and
`a.certificate.override.x509` both derive the output filename
`a.certificate.override.x509.pem` (the private-key PEM of one is the
certificate of the other). -/
theorem shared_filename_cex :
    ("a.certificate.override.x509" : String) ≠ "a" ∧
    ("a.certificate.override.x509.pem" : String) ∈ pathsOfApex "a" ∧
    ("a.certificate.override.x509.pem" : String) ∈
      pathsOfApex "a.certificate.override.x509" := by
  decide

/-- Claim C7, amended: the output path sets of distinct catalog entries are
pairwise disjoint — within the platform family unconditionally, within the
apex family provided neither name is the other followed by
`.certificate.override.x509`, and across the two families provided the apex
name is not the platform name followed by `.x509` and the platform name is
not the apex name followed by `.certificate.override` — for names free of
the path separator. -/
theorem output_paths_disjoint (home n m : String)
    (hn : slashFree n) (hm : slashFree m) :
    (n ≠ m →
      List.Disjoint (pathsOfPlatform home n) (pathsOfPlatform home m)) ∧
    (n ≠ m → n ≠ m ++ ".certificate.override.x509" →
      m ≠ n ++ ".certificate.override.x509" →
      List.Disjoint (pathsOfApex n) (pathsOfApex m)) ∧
    (m ≠ n ++ ".x509" → n ≠ m ++ ".certificate.override" →
      List.Disjoint (pathsOfPlatform home n) (pathsOfApex m)) := by
  refine ⟨?_, ?_, ?_⟩
  · intro hne a ha hb
    simp only [pathsOfPlatform, List.mem_cons, List.not_mem_nil,
      or_false] at ha hb
    rcases ha with rfl | rfl | rfl
    · rcases hb with h | h | h
      · exact hne (append_left_cancel_str (append_right_cancel_str h))
      · have h1 := slash_in_platform_key home n
        rw [h] at h1
        exact slash_not_in_app m ".x509.pem" hm (by decide) h1
      · have h1 := slash_in_platform_key home n
        rw [h] at h1
        exact slash_not_in_app m ".pk8" hm (by decide) h1
    · rcases hb with h | h | h
      · have h1 := slash_in_platform_key home m
        rw [← h] at h1
        exact slash_not_in_app n ".x509.pem" hn (by decide) h1
      · exact hne (append_right_cancel_str h)
      · exact append_ne_of_suffix_mismatch ".pk8" ".x509.pem" (by decide)
          (by decide) m n h.symm
    · rcases hb with h | h | h
      · have h1 := slash_in_platform_key home m
        rw [← h] at h1
        exact slash_not_in_app n ".pk8" hn (by decide) h1
      · exact append_ne_of_suffix_mismatch ".pk8" ".x509.pem" (by decide)
          (by decide) n m h
      · exact hne (append_right_cancel_str h)
  · intro hne hc1 hc2 a ha hb
    simp only [pathsOfApex, List.mem_cons, List.not_mem_nil,
      or_false] at ha hb
    rcases ha with rfl | rfl | rfl | rfl | rfl
    · rcases hb with h | h | h | h | h
      · exact hne (append_right_cancel_str h)
      · exact hc1 (append_eq_extend ".pem"
          ".certificate.override.x509.pem" ".certificate.override.x509"
          (by decide) n m h)
      · exact append_ne_of_suffix_mismatch ".pem"
          ".certificate.override.pk8" (by decide) (by decide) n m h
      · exact append_ne_of_suffix_mismatch ".pem" ".avbpubkey" (by decide)
          (by decide) n m h
      · exact append_ne_of_suffix_mismatch ".pem" ".pubkey" (by decide)
          (by decide) n m h
    · rcases hb with h | h | h | h | h
      · exact hc2 (append_eq_extend ".pem"
          ".certificate.override.x509.pem" ".certificate.override.x509"
          (by decide) m n h.symm)
      · exact hne (append_right_cancel_str h)
      · exact append_ne_of_suffix_mismatch ".certificate.override.pk8"
          ".certificate.override.x509.pem" (by decide) (by decide) m n h.symm
      · exact append_ne_of_suffix_mismatch ".avbpubkey"
          ".certificate.override.x509.pem" (by decide) (by decide) m n h.symm
      · exact append_ne_of_suffix_mismatch ".pubkey"
          ".certificate.override.x509.pem" (by decide) (by decide) m n h.symm
    · rcases hb with h | h | h | h | h
      · exact append_ne_of_suffix_mismatch ".pem"
          ".certificate.override.pk8" (by decide) (by decide) m n h.symm
      · exact append_ne_of_suffix_mismatch ".certificate.override.pk8"
          ".certificate.override.x509.pem" (by decide) (by decide) n m h
      · exact hne (append_right_cancel_str h)
      · exact append_ne_of_suffix_mismatch ".avbpubkey"
          ".certificate.override.pk8" (by decide) (by decide) m n h.symm
      · exact append_ne_of_suffix_mismatch ".pubkey"
          ".certificate.override.pk8" (by decide) (by decide) m n h.symm
    · rcases hb with h | h | h | h | h
      · exact append_ne_of_suffix_mismatch ".pem" ".avbpubkey" (by decide)
          (by decide) m n h.symm
      · exact append_ne_of_suffix_mismatch ".avbpubkey"
          ".certificate.override.x509.pem" (by decide) (by decide) n m h
      · exact append_ne_of_suffix_mismatch ".avbpubkey"
          ".certificate.override.pk8" (by decide) (by decide) n m h
      · exact hne (append_right_cancel_str h)
      · exact append_ne_of_suffix_mismatch ".pubkey" ".avbpubkey"
          (by decide) (by decide) m n h.symm
    · rcases hb with h | h | h | h | h
      · exact append_ne_of_suffix_mismatch ".pem" ".pubkey" (by decide)
          (by decide) m n h.symm
      · exact append_ne_of_suffix_mismatch ".pubkey"
          ".certificate.override.x509.pem" (by decide) (by decide) n m h
      · exact append_ne_of_suffix_mismatch ".pubkey"
          ".certificate.override.pk8" (by decide) (by decide) n m h
      · exact append_ne_of_suffix_mismatch ".pubkey" ".avbpubkey"
          (by decide) (by decide) n m h
      · exact hne (append_right_cancel_str h)
  · intro hc3 hc4 a ha hb
    simp only [pathsOfPlatform, pathsOfApex, List.mem_cons,
      List.not_mem_nil, or_false] at ha hb
    rcases ha with rfl | rfl | rfl
    · rcases hb with h | h | h | h | h
      · have h1 := slash_in_platform_key home n
        rw [h] at h1
        exact slash_not_in_app m ".pem" hm (by decide) h1
      · have h1 := slash_in_platform_key home n
        rw [h] at h1
        exact slash_not_in_app m ".certificate.override.x509.pem" hm
          (by decide) h1
      · have h1 := slash_in_platform_key home n
        rw [h] at h1
        exact slash_not_in_app m ".certificate.override.pk8" hm
          (by decide) h1
      · have h1 := slash_in_platform_key home n
        rw [h] at h1
        exact slash_not_in_app m ".avbpubkey" hm (by decide) h1
      · have h1 := slash_in_platform_key home n
        rw [h] at h1
        exact slash_not_in_app m ".pubkey" hm (by decide) h1
    · rcases hb with h | h | h | h | h
      · exact hc3 (append_eq_extend ".pem" ".x509.pem" ".x509" (by decide)
          m n h.symm)
      · exact hc4 (append_eq_extend ".x509.pem"
          ".certificate.override.x509.pem" ".certificate.override"
          (by decide) n m h)
      · exact append_ne_of_suffix_mismatch ".x509.pem"
          ".certificate.override.pk8" (by decide) (by decide) n m h
      · exact append_ne_of_suffix_mismatch ".x509.pem" ".avbpubkey"
          (by decide) (by decide) n m h
      · exact append_ne_of_suffix_mismatch ".pubkey" ".x509.pem"
          (by decide) (by decide) m n h.symm
    · rcases hb with h | h | h | h | h
      · exact append_ne_of_suffix_mismatch ".pk8" ".pem" (by decide)
          (by decide) n m h
      · exact append_ne_of_suffix_mismatch ".pk8"
          ".certificate.override.x509.pem" (by decide) (by decide) n m h
      · exact hc4 (append_eq_extend ".pk8" ".certificate.override.pk8"
          ".certificate.override" (by decide) n m h)
      · exact append_ne_of_suffix_mismatch ".pk8" ".avbpubkey" (by decide)
          (by decide) n m h
      · exact append_ne_of_suffix_mismatch ".pk8" ".pubkey" (by decide)
          (by decide) n m h

/-- Witness for the amended C7: a concrete platform entry and a concrete
apex entry have disjoint output path sets. -/
theorem output_paths_disjoint_witness :
    List.Disjoint (pathsOfPlatform "/home/user" "releasekey")
      (pathsOfApex "com.android.adbd") :=
  (output_paths_disjoint "/home/user" "releasekey" "com.android.adbd"
      (by decide) (by decide)).2.2 (by decide) (by decide)

/-- Counterexample to claim C8 as stated: the private-key PEM of an apex
entry is *not* written under the environment-resolved root directory — the
code builds it as the bare relative path `{apex}.pem` (gen_keys.py line
103), so it lands in the current working directory. -/
theorem apex_key_location_cex :
    ¬ underRoot "/home/user" ("com.android.adbd" ++ ".pem") := by
  rintro ⟨rest, h⟩
  have hd : ("com.android.adbd" ++ ".pem" : String).data =
      (CERTS_PATH "/home/user" ++ "/").data ++ rest.data := by
    rw [h, String.data_append]
  have hlen : (("com.android.adbd" ++ ".pem" : String).data).length =
      ((CERTS_PATH "/home/user" ++ "/").data).length + rest.data.length := by
    rw [hd, List.length_append]
  have h1 : (("com.android.adbd" ++ ".pem" : String).data).length = 20 := by
    decide
  have h2 : ((CERTS_PATH "/home/user" ++ "/").data).length = 26 := by
    decide
  omega

/-- Claim C8, amended: only the *platform* private-key PEMs live under the
environment-resolved root directory; the apex private-key PEMs — together
with all certificates, PKCS8 files, public keys and the two configuration
files — are bare relative filenames, written under the invocation's current
working directory. -/
theorem artifact_locations (home cert apex : String)
    (hc : slashFree cert) (ha : slashFree apex) :
    underRoot home (CERTS_PATH home ++ "/" ++ cert ++ ".pem") ∧
    slashFree (cert ++ ".x509.pem") ∧ slashFree (cert ++ ".pk8") ∧
    (∀ p ∈ pathsOfApex apex, slashFree p) ∧
    slashFree androidBpFile ∧ slashFree keysMkFile := by
  refine ⟨⟨cert ++ ".pem", ?_⟩, slash_not_in_app cert ".x509.pem" hc
    (by decide), slash_not_in_app cert ".pk8" hc (by decide), ?_, by decide,
    by decide⟩
  · apply String.ext
    simp [String.data_append, List.append_assoc]
  · intro p hp
    simp only [pathsOfApex, List.mem_cons, List.not_mem_nil,
      or_false] at hp
    rcases hp with rfl | rfl | rfl | rfl | rfl
    · exact slash_not_in_app apex ".pem" ha (by decide)
    · exact slash_not_in_app apex ".certificate.override.x509.pem" ha
        (by decide)
    · exact slash_not_in_app apex ".certificate.override.pk8" ha
        (by decide)
    · exact slash_not_in_app apex ".avbpubkey" ha (by decide)
    · exact slash_not_in_app apex ".pubkey" ha (by decide)

/-- Witness for the amended C8 at concrete entries. -/
theorem artifact_locations_witness :
    underRoot "/home/user"
      (CERTS_PATH "/home/user" ++ "/" ++ "releasekey" ++ ".pem") :=
  (artifact_locations "/home/user" "releasekey" "com.android.adbd"
      (by decide) (by decide)).1

end GenKeys
